import Mathlib

/-!
Shallow embedding of `src/drivers/ide.c` (PIO IDE driver).

Contents: buffer flags and the `iderw` entry contract, the `idestart`
register-programming sequence as a trace of port writes, an operational
model of the request queue driven by `iderw` enqueues and `ideintr`
completions, and the raw synchronous swap path `read_swap`/`write_swap`.
Hardware inputs (status-register values observed after the busy bit
clears, data words delivered by the data port) are oracle parameters.
-/

set_option maxRecDepth 4000

namespace Ide

/-! ## Protocol constants (ide.c lines 15-46) -/

def ATA_DATA : Nat := 0x00
def ATA_CTRL : Nat := 0x02
def ATA_SECCNT : Nat := 0x02
def ATA_SECTOR : Nat := 0x03
def ATA_CYL_LO : Nat := 0x04
def ATA_CYL_HI : Nat := 0x05
def ATA_SDH : Nat := 0x06
def ATA_COMMAND : Nat := 0x07

def ATA_SR_DF : Nat := 0x20
def ATA_SR_ERR : Nat := 0x01

def ATA_CMD_READ : Nat := 0x20
def ATA_CMD_WRITE : Nat := 0x30

def IO_BASE0 : Nat := 0x1F0
def IO_BASE1 : Nat := 0x170
def IO_CTRL1 : Nat := 0x374

def SWAP_DEVNO : Nat := 2
def SECTSIZE : Nat := 512

/-! ## Data model -/

/-- Modelled from the spec: `buf.h` is not in the repository snapshot; its
flag field is a bit-set of \x7bBUSY, DIRTY, VALID\x7d, embedded here as a record
of three booleans.  `flags |= B_VALID` becomes `valid := true`,
`flags &= ~B_DIRTY` becomes `dirty := false`, and the test
`(flags & (B_VALID|B_DIRTY)) == B_VALID` becomes `valid && !dirty`. -/
structure BufFlags where
  busy : Bool
  valid : Bool
  dirty : Bool
deriving DecidableEq

/-- A buffer request as `iderw`/`idestart` see it: device number, block
number, flags, and the block data (a list of 32-bit words, matching the
`outsl`/`insl` transfer granularity of 4-byte units). -/
structure Buf where
  dev : Nat
  blockno : Nat
  flags : BufFlags
  data : List Nat
deriving DecidableEq

/-- The fatal (`panic`) exits of the driver, one constructor per `panic`
call site in `idestart` and `iderw` (the null-pointer panic of `idestart`
has no counterpart: a Lean `Buf` value is never null). -/
inductive IdePanic where
  | badBlockno      -- idestart line 114: incorrect blockno
  | tooManySectors  -- idestart line 118: sector_per_block > 7
  | notBusy         -- iderw line 176: buf not busy
  | nothingToDo     -- iderw line 178: nothing to do
  | noDisk1         -- iderw line 180: ide disk 1 not present
deriving DecidableEq

/-- One write to a device register: `outb` writes a byte to a port,
`outsl` streams a block of 32-bit words to a port. -/
inductive IOEvent where
  | outb (port value : Nat)
  | outsl (port : Nat) (data : List Nat)
deriving DecidableEq

/-- Port of an I/O event. -/
def eventPort : IOEvent → Nat
  | .outb p _ => p
  | .outsl p _ => p

/-- Whether the event is a data-block transfer (`outsl`). -/
def isDataOut : IOEvent → Bool
  | .outsl _ _ => true
  | _ => false

/-! ## idewait (ide.c lines 60-68)

The busy-poll loop `while ((r = inb(iobase + ATA_STATUS)) & ATA_SR_BSY);`
is modeled by taking `status` to be the register value observed once the
busy bit cleared; with `check_error` set, a drive-fault or error bit in
that value yields -1, otherwise the result is 0. -/

def idewait (status : Nat) (check_error : Bool) : Int :=
  if check_error && ((status &&& (ATA_SR_DF ||| ATA_SR_ERR)) != 0) then -1 else 0

/-! ## idestart (ide.c lines 108-133) -/

/-- The six register writes of `idestart` preceding the command byte
(ide.c lines 121-126): interrupt enable, sector count, and the 28-bit
sector address split across four registers, the top nibble sharing the
drive/head byte with the fixed 0xe0 pattern and the master/slave bit. -/
def idestartSetup (bsize : Nat) (b : Buf) : List IOEvent :=
  let sector_per_block := bsize / SECTSIZE
  let sector := b.blockno * sector_per_block
  [ .outb 0x3f6 0,
    .outb 0x1f2 sector_per_block,
    .outb 0x1f3 (sector &&& 0xff),
    .outb 0x1f4 ((sector >>> 8) &&& 0xff),
    .outb 0x1f5 ((sector >>> 16) &&& 0xff),
    .outb 0x1f6 (0xe0 ||| ((b.dev &&& 1) <<< 4) ||| ((sector >>> 24) &&& 0xf)) ]

/-- The full register-write trace of a successful `idestart`: the setup
writes, then either the write command followed by the block data pushed
to the data port (if DIRTY), or the read command alone (ide.c lines
127-132).  `outsl(0x1f0, b->data, BSIZE/4)` transfers exactly `BSIZE/4`
words, hence `b.data.take (bsize / 4)`. -/
def idestartWrites (bsize : Nat) (b : Buf) : List IOEvent :=
  idestartSetup bsize b ++
    (if b.flags.dirty then
      [.outb 0x1f7 ATA_CMD_WRITE, .outsl 0x1f0 (b.data.take (bsize / 4))]
    else
      [.outb 0x1f7 ATA_CMD_READ])

/-- `idestart` (ide.c lines 108-133): the block-number bound check against
`FSSIZE` and the sectors-per-block limit check, in source order, then the
register writes.  `fssize` and `bsize` stand for the `FSSIZE` and `BSIZE`
configuration constants (whose headers are outside this snapshot); an
`Except.error` is a `panic` before any register is programmed. -/
def idestart (fssize bsize : Nat) (b : Buf) : Except IdePanic (List IOEvent) :=
  if fssize ≤ b.blockno then .error .badBlockno
  else if 7 < bsize / SECTSIZE then .error .tooManySectors
  else .ok (idestartWrites bsize b)

/-- The primary-channel register set: I/O ports 0x1f0-0x1f7 and the
control port 0x3f6 (port 0x1f1 is never written by `idestart`). -/
def primaryPorts : List Nat := [0x3f6, 0x1f0, 0x1f2, 0x1f3, 0x1f4, 0x1f5, 0x1f6, 0x1f7]

/-- Set the master/slave bit (bit 4) in the value written to the
drive/head register 0x1f6; leave every other event unchanged. -/
def setSlaveBit : IOEvent → IOEvent
  | .outb p v => if p = 0x1f6 then .outb p (v ||| 0x10) else .outb p v
  | e => e

/-! ## iderw entry (ide.c lines 170-200) -/

/-- The entry section of `iderw` (ide.c lines 175-188): the three guard
panics in source order, then append to the queue.  The queue is a list of
buffers, head = active request; an `Except.error` result is a `panic`
before the queue is touched. -/
def iderwEnqueue (b : Buf) (havedisk1 : Bool) (q : List Buf) :
    Except IdePanic (List Buf) :=
  if !b.flags.busy then .error .notBusy
  else if b.flags.valid && !b.flags.dirty then .error .nothingToDo
  else if b.dev != 0 && !havedisk1 then .error .noDisk1
  else .ok (q ++ [b])

/-- Exit condition of the wait loop of `iderw` (ide.c line 195): the loop
`while ((b->flags & (B_VALID|B_DIRTY)) != B_VALID) sleep(b, &idelock);`
returns control to the caller exactly when this predicate holds. -/
def iderwDone (f : BufFlags) : Bool :=
  f.valid && !f.dirty

/-! ## Operational model of the request queue

State of the driver as seen under `idelock`: the queue of buffer ids
(head = active request), the flags and data of every buffer, and three
histories recording the externally visible actions — the ids passed to
`idestart`, the number of completions popped by `ideintr`, and the ids
passed to `wakeup`. -/

structure DState where
  idequeue : List Nat
  flags : Nat → BufFlags
  data : Nat → List Nat
  started : List Nat
  popped : Nat
  wakeups : List Nat

/-- Initial driver state: empty queue, no starts, no completions, no
wakeups; buffer flags and data arbitrary. -/
def initDState (f0 : Nat → BufFlags) (d0 : Nat → List Nat) : DState :=
  { idequeue := [], flags := f0, data := d0, started := [], popped := 0, wakeups := [] }

/-- The queue section of `iderw` (ide.c lines 184-192): append `b` to the
queue, then `if (idequeue == b) idestart(b)` — after the append the head
is `b` exactly when the queue was empty before it (the caller never
enqueues a buffer twice). -/
def iderwStep (b : Nat) (s : DState) : DState :=
  { s with
    idequeue := s.idequeue ++ [b],
    started := if s.idequeue = [] then s.started ++ [b] else s.started }

/-- `ideintr` (ide.c lines 136-164): if the queue is empty the interrupt
is spurious and nothing happens.  Otherwise pop the head `b`; if `b` was a
read (not DIRTY) and the error-checked wait succeeded (`ok`), pull the
block data from the data port (`hw b` is the data the disk delivers for
`b`); set VALID, clear DIRTY, wake the thread blocked on `b`; and if the
queue is still non-empty, start the new head. -/
def ideintrStep (hw : Nat → List Nat) (ok : Bool) (s : DState) : DState :=
  match s.idequeue with
  | [] => s
  | b :: rest =>
    { idequeue := rest,
      flags := fun i => if i = b then
          { s.flags b with valid := true, dirty := false } else s.flags i,
      data := if !(s.flags b).dirty && ok then
          (fun i => if i = b then hw b else s.data i) else s.data,
      started := s.started ++ (match rest with | [] => [] | c :: _ => [c]),
      popped := s.popped + 1,
      wakeups := s.wakeups ++ [b] }

/-- An event of the queued path: an `iderw` enqueue of buffer `b`, or an
`ideintr` completion whose error-checked wait returned `ok`. -/
inductive Ev where
  | rw (b : Nat)
  | intr (ok : Bool)

/-- One step of the queued path. -/
def stepEv (hw : Nat → List Nat) (e : Ev) (s : DState) : DState :=
  match e with
  | .rw b => iderwStep b s
  | .intr ok => ideintrStep hw ok s

/-- Run a sequence of enqueue/completion events. -/
def ideRun (hw : Nat → List Nat) (evs : List Ev) (s : DState) : DState :=
  evs.foldl (fun s e => stepEv hw e s) s

/-- At-most-one-in-flight invariant: the number of `idestart` invocations
equals the number of processed completions, plus one exactly when the
queue is non-empty (that one is the operation in flight on the head). -/
def startInv (s : DState) : Prop :=
  s.started.length = s.popped + (if s.idequeue = [] then 0 else 1)

/-! ## Raw synchronous swap path (ide.c lines 202-260)

`read_swap`/`write_swap` program a fixed 8-sector transfer on the
secondary channel and then move one sector per iteration, re-doing the
error-checked wait before each sector.  `st k` is the status value
observed at the k-th per-sector wait; `pd k i` (resp. `src k i`) is the
i-th data word the port delivers (resp. memory supplies) for sector k.
The caller's buffer is a function from sector index to sector contents;
the spinlock is not modeled (the functions are sequential here). -/

/-- The words `insl(iobase, dst, SECTSIZE / 4)` pulls for sector `k`. -/
def pulledSector (pd : Nat → Nat → Nat) (k : Nat) : List Nat :=
  (List.range (SECTSIZE / 4)).map (pd k)

/-- The words `outsl(iobase, src, SECTSIZE / 4)` pushes for sector `k`. -/
def pushedSector (src : Nat → Nat → Nat) (k : Nat) : List Nat :=
  (List.range (SECTSIZE / 4)).map (src k)

/-- Overwrite sector `k` of the caller's buffer. -/
def writeSec (dst : Nat → List Nat) (k : Nat) (v : List Nat) : Nat → List Nat :=
  fun j => if j = k then v else dst j

/-- The register setup common to `read_swap` and `write_swap` (ide.c
lines 211-217 and 241-247): device control, sector count 8, the 28-bit
sector address with the secondary-master drive select, then the command. -/
def swapSetup (secno cmd : Nat) : List IOEvent :=
  [ .outb (IO_CTRL1 + ATA_CTRL) 0,
    .outb (IO_BASE1 + ATA_SECCNT) 8,
    .outb (IO_BASE1 + ATA_SECTOR) (secno &&& 0xff),
    .outb (IO_BASE1 + ATA_CYL_LO) ((secno >>> 8) &&& 0xff),
    .outb (IO_BASE1 + ATA_CYL_HI) ((secno >>> 16) &&& 0xff),
    .outb (IO_BASE1 + ATA_SDH) (0xe0 ||| ((SWAP_DEVNO &&& 1) <<< 4) ||| ((secno >>> 24) &&& 0xf)),
    .outb (IO_BASE1 + ATA_COMMAND) cmd ]

/-- Per-sector loop of `read_swap` (ide.c lines 219-226): `n` sectors
remain, `k` is the current sector index; each iteration waits with error
check, aborts with the fault on failure, else pulls one sector. -/
def readSwapLoop (pd : Nat → Nat → Nat) (st : Nat → Nat) :
    Nat → Nat → (Nat → List Nat) → Int × (Nat → List Nat)
  | 0, _, dst => (0, dst)
  | n + 1, k, dst =>
    let r := idewait (st k) true
    if r != 0 then (r, dst)
    else readSwapLoop pd st n (k + 1) (writeSec dst k (pulledSector pd k))

/-- Result of `read_swap`: return value, final contents of the caller's
buffer, and the setup register writes. -/
structure SwapRead where
  ret : Int
  dstOut : Nat → List Nat
  setup : List IOEvent

/-- `read_swap` (ide.c lines 202-230). -/
def read_swap (pd : Nat → Nat → Nat) (st : Nat → Nat) (secno : Nat)
    (dst : Nat → List Nat) : SwapRead :=
  let r := readSwapLoop pd st 8 0 dst
  { ret := r.1, dstOut := r.2, setup := swapSetup secno ATA_CMD_READ }

/-- Per-sector loop of `write_swap` (ide.c lines 249-256); `out`
accumulates the sectors actually pushed to the data port. -/
def writeSwapLoop (src : Nat → Nat → Nat) (st : Nat → Nat) :
    Nat → Nat → List (List Nat) → Int × List (List Nat)
  | 0, _, out => (0, out)
  | n + 1, k, out =>
    let r := idewait (st k) true
    if r != 0 then (r, out)
    else writeSwapLoop src st n (k + 1) (out ++ [pushedSector src k])

/-- Result of `write_swap`: return value, sectors pushed to the port, and
the setup register writes. -/
structure SwapWrite where
  ret : Int
  pushed : List (List Nat)
  setup : List IOEvent

/-- `write_swap` (ide.c lines 232-260). -/
def write_swap (src : Nat → Nat → Nat) (st : Nat → Nat) (secno : Nat) : SwapWrite :=
  let r := writeSwapLoop src st 8 0 []
  { ret := r.1, pushed := r.2, setup := swapSetup secno ATA_CMD_WRITE }

/-! ## Helper lemmas -/

/-- The drive/head byte with bit 4 set equals the device-0 byte with 0x10
joined on: both sides depend only on the low nibble `x &&& 15`. -/
lemma sdh_or16 (x : Nat) : 240 ||| (x &&& 15) = (224 ||| (x &&& 15)) ||| 16 := by
  have hy : x &&& 15 ≤ 15 := Nat.and_le_right
  generalize hxy : x &&& 15 = y at hy
  interval_cases y <;> decide

/-- The device-0 drive/head byte has bit 4 clear. -/
lemma sdh_bit4 (x : Nat) : (224 ||| (x &&& 15)) &&& 16 = 0 := by
  have hy : x &&& 15 ≤ 15 := Nat.and_le_right
  generalize hxy : x &&& 15 = y at hy
  interval_cases y <;> decide

/-- Masking with 1 is idempotent. -/
lemma and_one_and_one (d : Nat) : (d &&& 1) &&& 1 = d &&& 1 := by
  have hy : d &&& 1 ≤ 1 := Nat.and_le_right
  rcases Nat.le_one_iff_eq_zero_or_eq_one.mp hy with h | h <;> rw [h] <;> decide

/-! ## Theorems -/

/-- C3: `iderw` hits one of its two caller-contract panics exactly when
BUSY is clear or VALID is set with DIRTY clear; in that case the result is
an error, so the queue is never touched; otherwise neither of these two
panics fires. -/
theorem iderw_contract_panics_iff (b : Buf) (havedisk1 : Bool) (q : List Buf) :
    (iderwEnqueue b havedisk1 q = .error .notBusy ∨
     iderwEnqueue b havedisk1 q = .error .nothingToDo) ↔
    (b.flags.busy = false ∨ (b.flags.valid = true ∧ b.flags.dirty = false)) := by
  unfold iderwEnqueue
  rcases b with ⟨dev, blockno, ⟨busy, valid, dirty⟩, data⟩
  cases busy <;> cases valid <;> cases dirty <;>
    cases havedisk1 <;> simp <;> by_cases hd : dev = 0 <;> simp [hd]

/-- Witness for C3 at a concrete buffer. -/
theorem iderw_contract_panics_iff_witness :
    (iderwEnqueue ⟨0, 0, ⟨false, false, false⟩, []⟩ true [] = .error .notBusy ∨
     iderwEnqueue ⟨0, 0, ⟨false, false, false⟩, []⟩ true [] = .error .nothingToDo) := by
  exact (iderw_contract_panics_iff ⟨0, 0, ⟨false, false, false⟩, []⟩ true []).mpr
    (Or.inl rfl)

/-- C9: for a buffer satisfying the busy/valid-dirty entry contract, the
disk-presence gate of `iderw` (ide.c lines 179-180) panics exactly when the
device id is nonzero and `havedisk1` is unset; device-0 requests and
nonzero-device requests with the disk detected pass the gate and are
appended to the queue. -/
theorem iderw_disk_gate (b : Buf) (havedisk1 : Bool) (q : List Buf)
    (hbusy : b.flags.busy = true)
    (hwork : ¬(b.flags.valid = true ∧ b.flags.dirty = false)) :
    ((b.dev ≠ 0 ∧ havedisk1 = false) ↔
       iderwEnqueue b havedisk1 q = .error .noDisk1) ∧
    ((b.dev = 0 ∨ havedisk1 = true) →
       iderwEnqueue b havedisk1 q = .ok (q ++ [b])) := by
  unfold iderwEnqueue
  rcases b with ⟨dev, blockno, ⟨busy, valid, dirty⟩, data⟩
  simp only at hbusy hwork
  subst hbusy
  cases valid <;> cases dirty <;> simp_all <;>
    cases havedisk1 <;> by_cases hd : dev = 0 <;> simp_all

/-- Witness for C9: a busy dirty buffer for device 1 with `havedisk1`
unset hits the disk-presence panic. -/
theorem iderw_disk_gate_witness :
    iderwEnqueue ⟨1, 0, ⟨true, false, true⟩, []⟩ false [] = .error .noDisk1 := by
  exact ((iderw_disk_gate ⟨1, 0, ⟨true, false, true⟩, []⟩ false [] rfl
    (by simp)).1).mp ⟨by simp, rfl⟩

/-- C4: the out-of-range check of `idestart` is exact at the
filesystem-size boundary: `blockno ≥ fssize` panics before any register
write is emitted, while `blockno = fssize - 1` (under the
sectors-per-block configuration limit) passes the check and produces the
non-empty register-programming trace. -/
theorem idestart_blockno_boundary (fssize bsize : Nat) (b : Buf) :
    (fssize ≤ b.blockno → idestart fssize bsize b = .error .badBlockno) ∧
    (0 < fssize → bsize / SECTSIZE ≤ 7 → b.blockno = fssize - 1 →
       idestart fssize bsize b = .ok (idestartWrites bsize b) ∧
       idestartWrites bsize b ≠ []) := by
  constructor
  · intro h
    simp [idestart, h]
  · intro hpos hspb hedge
    have h1 : ¬ fssize ≤ b.blockno := by omega
    have h2 : ¬ 7 < bsize / SECTSIZE := by omega
    refine ⟨by simp [idestart, h1, h2], ?_⟩
    simp [idestartWrites, idestartSetup]

/-- Witness for C4: with `FSSIZE = 1000` and `BSIZE = 512`, block 1000 is
rejected and block 999 is started. -/
theorem idestart_blockno_boundary_witness :
    idestart 1000 512 ⟨0, 1000, ⟨true, false, true⟩, []⟩ = .error .badBlockno ∧
    idestart 1000 512 ⟨0, 999, ⟨true, false, true⟩, []⟩ =
      .ok (idestartWrites 512 ⟨0, 999, ⟨true, false, true⟩, []⟩) :=
  ⟨(idestart_blockno_boundary 1000 512 _).1 le_rfl,
   ((idestart_blockno_boundary 1000 512 _).2 (by decide) (by decide) rfl).1⟩

/-- C5: the command a successful `idestart` issues is determined solely by
the DIRTY flag: if DIRTY, opcode 0x30 immediately followed by the full
block of data pushed to the data port; if not DIRTY, opcode 0x20 alone,
with no data transfer anywhere in the trace. -/
theorem idestart_command_by_dirty (fssize bsize : Nat) (b : Buf)
    (evs : List IOEvent) (h : idestart fssize bsize b = .ok evs) :
    (b.flags.dirty = true →
       evs = idestartSetup bsize b ++
         [.outb 0x1f7 0x30, .outsl 0x1f0 (b.data.take (bsize / 4))]) ∧
    (b.flags.dirty = false →
       evs = idestartSetup bsize b ++ [.outb 0x1f7 0x20] ∧
       ∀ e ∈ evs, isDataOut e = false) := by
  unfold idestart at h
  split at h
  · exact absurd h (by simp)
  · split at h
    · exact absurd h (by simp)
    · simp only [Except.ok.injEq] at h
      subst h
      constructor
      · intro hd
        simp [idestartWrites, hd, ATA_CMD_WRITE]
      · intro hd
        refine ⟨by simp [idestartWrites, hd, ATA_CMD_READ], ?_⟩
        intro e he
        simp [idestartWrites, hd, idestartSetup, ATA_CMD_READ] at he
        rcases he with h | h | h | h | h | h | h <;> subst h <;> rfl

/-- Witness for C5: a concrete dirty buffer yields the write command and
the data push. -/
theorem idestart_command_by_dirty_witness :
    idestartWrites 512 ⟨0, 1, ⟨true, false, true⟩, [7]⟩ =
      idestartSetup 512 ⟨0, 1, ⟨true, false, true⟩, [7]⟩ ++
        [.outb 0x1f7 0x30, .outsl 0x1f0 (([7] : List Nat).take (512 / 4))] :=
  (idestart_command_by_dirty 1000 512 ⟨0, 1, ⟨true, false, true⟩, [7]⟩
    (idestartWrites 512 ⟨0, 1, ⟨true, false, true⟩, [7]⟩) (by rfl)).1 rfl

/-- C10: every register `idestart` writes is on the primary channel
(ports 0x1f0-0x1f7 and control port 0x3f6) regardless of the request's
device id; the device id reaches the trace only through its low bit, and
flipping that bit changes nothing but bit 4 of the byte written to the
drive/head register 0x1f6 (which is clear for device 0). -/
theorem idestart_primary_only (fssize bsize : Nat) (b : Buf) :
    (∀ evs, idestart fssize bsize b = .ok evs →
       ∀ e ∈ evs, eventPort e ∈ primaryPorts) ∧
    (∀ d, idestart fssize bsize { b with dev := d } =
       idestart fssize bsize { b with dev := d &&& 1 }) ∧
    (idestart fssize bsize { b with dev := 1 } =
       (idestart fssize bsize { b with dev := 0 }).map (List.map setSlaveBit)) ∧
    (∀ evs v, idestart fssize bsize { b with dev := 0 } = .ok evs →
       IOEvent.outb 0x1f6 v ∈ evs → v &&& 0x10 = 0) := by
  refine ⟨?_, ?_, ?_, ?_⟩
  · intro evs h e he
    unfold idestart at h
    split at h
    · exact absurd h (by simp)
    · split at h
      · exact absurd h (by simp)
      · simp only [Except.ok.injEq] at h
        subst h
        by_cases hd : b.flags.dirty
        · simp [idestartWrites, idestartSetup, hd] at he
          rcases he with h | h | h | h | h | h | h | h <;> subst h <;>
            simp [eventPort, primaryPorts]
        · simp [idestartWrites, idestartSetup, hd] at he
          rcases he with h | h | h | h | h | h | h <;> subst h <;>
            simp [eventPort, primaryPorts]
  · intro d
    unfold idestart idestartWrites idestartSetup
    simp [and_one_and_one]
  · unfold idestart idestartWrites idestartSetup
    by_cases h1 : fssize ≤ b.blockno
    · simp [h1, Except.map]
    · by_cases h2 : 7 < bsize / SECTSIZE
      · simp [h1, h2, Except.map]
      · by_cases hd : b.flags.dirty <;>
          simp [h1, h2, hd, Except.map, setSlaveBit] <;>
          exact sdh_or16 _
  · intro evs v h hmem
    unfold idestart at h
    split at h
    · exact absurd h (by simp)
    · split at h
      · exact absurd h (by simp)
      · simp only [Except.ok.injEq] at h
        subst h
        by_cases hd : b.flags.dirty <;>
          simp [idestartWrites, idestartSetup, hd] at hmem <;>
          subst hmem <;> exact sdh_bit4 _

/-- Every step preserves the at-most-one-in-flight invariant. -/
lemma stepEv_startInv (hw : Nat → List Nat) (e : Ev) (s : DState)
    (h : startInv s) : startInv (stepEv hw e s) := by
  cases e with
  | rw b =>
    simp only [stepEv, iderwStep, startInv] at h ⊢
    have hne : s.idequeue ++ [b] ≠ [] := by simp
    by_cases hq : s.idequeue = [] <;> simp [hq, hne] at h ⊢ <;> omega
  | intr ok =>
    simp only [stepEv]
    cases hq : s.idequeue with
    | nil =>
      unfold ideintrStep
      rw [hq]
      exact h
    | cons b rest =>
      cases rest with
      | nil =>
        simp only [startInv] at h ⊢
        simp [ideintrStep, hq] at h ⊢
        omega
      | cons c t =>
        simp only [startInv] at h ⊢
        simp [ideintrStep, hq] at h ⊢
        omega

/-- Running any event sequence preserves the invariant. -/
lemma ideRun_startInv (hw : Nat → List Nat) (evs : List Ev) :
    ∀ s, startInv s → startInv (ideRun hw evs s) := by
  induction evs with
  | nil => intro s h; exact h
  | cons e evs ih =>
    intro s h
    simpa [ideRun] using ih _ (stepEv_startInv hw e s h)

/-- Whenever a step records an `idestart` invocation, the started request
is the head of the queue after the step. -/
lemma stepEv_start_head (hw : Nat → List Nat) (e : Ev) (s : DState) :
    (stepEv hw e s).started = s.started ∨
    ∃ r, (stepEv hw e s).started = s.started ++ [r] ∧
         (stepEv hw e s).idequeue.head? = some r := by
  cases e with
  | rw b =>
    by_cases hq : s.idequeue = []
    · exact Or.inr ⟨b, by simp [stepEv, iderwStep, hq], by simp [stepEv, iderwStep, hq]⟩
    · exact Or.inl (by simp [stepEv, iderwStep, hq])
  | intr ok =>
    cases hq : s.idequeue with
    | nil =>
      refine Or.inl ?_
      simp only [stepEv]
      unfold ideintrStep
      rw [hq]
    | cons b rest =>
      cases rest with
      | nil => exact Or.inl (by simp [stepEv, ideintrStep, hq])
      | cons c t =>
        exact Or.inr ⟨c, by simp [stepEv, ideintrStep, hq], by simp [stepEv, ideintrStep, hq]⟩

/-- C1: at most one hardware operation is ever in flight.  For every
sequence of `iderw` enqueues and `ideintr` completions from the initial
state, the number of `idestart` invocations equals the number of processed
completions plus one exactly when the queue is non-empty; and any step
that invokes `idestart` does so on the request that is then the head of
`idequeue` (`iderw` starts only the freshly appended request when the
queue was empty before the append, `ideintr` only the new head after the
pop). -/
theorem dispatcher_single_inflight (hw : Nat → List Nat) (f0 : Nat → BufFlags)
    (d0 : Nat → List Nat) (evs : List Ev) :
    startInv (ideRun hw evs (initDState f0 d0)) ∧
    ∀ e s, (stepEv hw e s).started = s.started ∨
      ∃ r, (stepEv hw e s).started = s.started ++ [r] ∧
           (stepEv hw e s).idequeue.head? = some r :=
  ⟨ideRun_startInv hw evs _ (by simp [startInv, initDState]),
   fun e s => stepEv_start_head hw e s⟩

/-- C2: `iderw` returns to its caller only when the flags show VALID set
and DIRTY clear: the wait-loop exit condition `iderwDone` holds exactly
then; no step of the driver ever changes any buffer's BUSY flag; and the
completion that pops a request establishes the exit condition for it while
leaving its BUSY flag as it was (hence still set for a contract-abiding
caller). -/
theorem iderw_returns_settled (hw : Nat → List Nat) (ok : Bool) (s : DState)
    (b : Nat) (rest : List Nat) (h : s.idequeue = b :: rest) :
    (∀ f, iderwDone f = true ↔ (f.valid = true ∧ f.dirty = false)) ∧
    (∀ e t i, ((stepEv hw e t).flags i).busy = (t.flags i).busy) ∧
    iderwDone ((ideintrStep hw ok s).flags b) = true ∧
    ((ideintrStep hw ok s).flags b).busy = (s.flags b).busy := by
  refine ⟨?_, ?_, ?_, ?_⟩
  · intro f
    cases f with
    | mk busy valid dirty => cases valid <;> cases dirty <;> simp [iderwDone]
  · intro e t i
    cases e with
    | rw c => simp [stepEv, iderwStep]
    | intr ok2 =>
      cases hq : t.idequeue with
      | nil =>
        simp only [stepEv]
        unfold ideintrStep
        rw [hq]
      | cons c cs =>
        simp only [stepEv]
        simp [ideintrStep, hq]
        by_cases hic : i = c <;> simp [hic]
  · simp [ideintrStep, h, iderwDone]
  · simp [ideintrStep, h]

/-- Witness for C2 on a concrete one-element queue. -/
theorem iderw_returns_settled_witness :
    iderwDone ((ideintrStep (fun _ => []) true
      { idequeue := [5], flags := fun _ => ⟨true, false, true⟩,
        data := fun _ => [], started := [], popped := 0,
        wakeups := [] }).flags 5) = true :=
  (iderw_returns_settled (fun _ => []) true _ 5 [] rfl).2.2.1

/-- C6: for every request popped by the interrupt handler, the handler
sets VALID, clears DIRTY, and wakes the thread blocked on that request,
for either outcome `ok` of the error-checked wait; when the request was a
read and the wait reported a fault, only the data pull is skipped (the
buffer data is left untouched) and the flags are still set. -/
theorem ideintr_completion_flags (hw : Nat → List Nat) (ok : Bool) (s : DState)
    (b : Nat) (rest : List Nat) (h : s.idequeue = b :: rest) :
    ((ideintrStep hw ok s).flags b).valid = true ∧
    ((ideintrStep hw ok s).flags b).dirty = false ∧
    (ideintrStep hw ok s).wakeups = s.wakeups ++ [b] ∧
    ((s.flags b).dirty = false → ok = false →
       (ideintrStep hw ok s).data = s.data) := by
  refine ⟨by simp [ideintrStep, h], by simp [ideintrStep, h],
    by simp [ideintrStep, h], ?_⟩
  intro hdirty hok
  simp [ideintrStep, h, hdirty, hok]

/-- Witness for C6 on a concrete one-element queue. -/
theorem ideintr_completion_flags_witness :
    ((ideintrStep (fun _ => [3]) false
      { idequeue := [7], flags := fun _ => ⟨true, false, false⟩,
        data := fun _ => [], started := [], popped := 0,
        wakeups := [] }).flags 7).valid = true :=
  (ideintr_completion_flags (fun _ => [3]) false _ 7 [] rfl).1

/-- C7: a spurious interrupt is a benign no-op: when the queue is empty,
`ideintr` leaves the driver state (queue, every buffer's flags and data,
and all histories) exactly as it was. -/
theorem ideintr_spurious_noop (hw : Nat → List Nat) (ok : Bool) (s : DState)
    (h : s.idequeue = []) : ideintrStep hw ok s = s := by
  unfold ideintrStep
  rw [h]

/-- Witness for C7 on a concrete empty-queue state. -/
theorem ideintr_spurious_noop_witness :
    ideintrStep (fun _ => []) true
      { idequeue := [], flags := fun _ => ⟨true, true, false⟩,
        data := fun _ => [], started := [], popped := 0, wakeups := [] } =
    { idequeue := [], flags := fun _ => ⟨true, true, false⟩,
        data := fun _ => [], started := [], popped := 0, wakeups := [] } :=
  ideintr_spurious_noop (fun _ => []) true _ rfl

/-- Witness for C10: the control-port write of a concrete started request
is in the primary register set. -/
theorem idestart_primary_only_witness :
    eventPort (IOEvent.outb 0x3f6 0) ∈ primaryPorts :=
  (idestart_primary_only 1000 512 ⟨0, 1, ⟨true, false, false⟩, []⟩).1
    (idestartWrites 512 ⟨0, 1, ⟨true, false, false⟩, []⟩) (by rfl)
    (IOEvent.outb 0x3f6 0) (by simp [idestartWrites, idestartSetup])

/-- If every remaining per-sector wait succeeds, the read loop returns 0
and fills exactly the sectors it visits. -/
lemma readSwapLoop_ok (pd : Nat → Nat → Nat) (st : Nat → Nat) :
    ∀ (n k : Nat) (dst : Nat → List Nat),
      (∀ i, k ≤ i → i < k + n → idewait (st i) true = 0) →
      readSwapLoop pd st n k dst =
        (0, fun j => if k ≤ j ∧ j < k + n then pulledSector pd j else dst j) := by
  intro n
  induction n with
  | zero =>
    intro k dst h
    simp only [readSwapLoop]
    exact congrArg _ (funext fun j => by rw [if_neg (by omega)])
  | succ n ih =>
    intro k dst h
    have h0 : idewait (st k) true = 0 := h k le_rfl (by omega)
    simp only [readSwapLoop]
    rw [h0]
    simp only [bne_self_eq_false, Bool.false_eq_true, if_false]
    rw [ih (k + 1) _ (fun i hi1 hi2 => h i (by omega) (by omega))]
    refine congrArg _ (funext fun j => ?_)
    by_cases hjk : j = k
    · subst hjk
      rw [if_neg (by omega), if_pos ⟨le_rfl, by omega⟩]
      simp [writeSec]
    · simp only [writeSec, if_neg hjk]
      by_cases hr : k + 1 ≤ j ∧ j < k + 1 + n
      · rw [if_pos hr, if_pos (by omega)]
      · rw [if_neg hr, if_neg (by omega)]

/-- If the wait fails first at sector `f`, the read loop aborts there with
the fault, having filled only the sectors before `f`. -/
lemma readSwapLoop_fault (pd : Nat → Nat → Nat) (st : Nat → Nat) :
    ∀ (n k : Nat) (dst : Nat → List Nat) (f : Nat), k ≤ f → f < k + n →
      idewait (st f) true ≠ 0 →
      (∀ i, k ≤ i → i < f → idewait (st i) true = 0) →
      readSwapLoop pd st n k dst =
        (idewait (st f) true,
         fun j => if k ≤ j ∧ j < f then pulledSector pd j else dst j) := by
  intro n
  induction n with
  | zero => intro k dst f h1 h2 h3 h4; omega
  | succ n ih =>
    intro k dst f h1 h2 h3 h4
    by_cases hkf : f = k
    · subst hkf
      have hb : (idewait (st f) true != 0) = true := by simpa using h3
      simp only [readSwapLoop]
      rw [hb]
      simp only [if_true]
      exact congrArg _ (funext fun j => by rw [if_neg (by omega)])
    · have h0 : idewait (st k) true = 0 := h4 k le_rfl (by omega)
      simp only [readSwapLoop]
      rw [h0]
      simp only [bne_self_eq_false, Bool.false_eq_true, if_false]
      rw [ih (k + 1) _ f (by omega) (by omega) h3
        (fun i hi1 hi2 => h4 i (by omega) hi2)]
      refine congrArg _ (funext fun j => ?_)
      by_cases hjk : j = k
      · subst hjk
        rw [if_neg (by omega), if_pos ⟨le_rfl, by omega⟩]
        simp [writeSec]
      · simp only [writeSec, if_neg hjk]
        by_cases hr : k + 1 ≤ j ∧ j < f
        · rw [if_pos hr, if_pos (by omega)]
        · rw [if_neg hr, if_neg (by omega)]

/-- If every remaining per-sector wait succeeds, the write loop returns 0
after pushing exactly the sectors it visits. -/
lemma writeSwapLoop_ok (src : Nat → Nat → Nat) (st : Nat → Nat) :
    ∀ (n k : Nat) (out : List (List Nat)),
      (∀ i, k ≤ i → i < k + n → idewait (st i) true = 0) →
      writeSwapLoop src st n k out =
        (0, out ++ (List.range' k n).map (pushedSector src)) := by
  intro n
  induction n with
  | zero => intro k out h; simp [writeSwapLoop]
  | succ n ih =>
    intro k out h
    have h0 : idewait (st k) true = 0 := h k le_rfl (by omega)
    simp only [writeSwapLoop]
    rw [h0]
    simp only [bne_self_eq_false, Bool.false_eq_true, if_false]
    rw [ih (k + 1) _ (fun i hi1 hi2 => h i (by omega) (by omega))]
    rw [List.range'_succ]
    simp

/-- If the wait fails first at sector `f`, the write loop aborts there
with the fault, having pushed only the sectors before `f`. -/
lemma writeSwapLoop_fault (src : Nat → Nat → Nat) (st : Nat → Nat) :
    ∀ (n k : Nat) (out : List (List Nat)) (f : Nat), k ≤ f → f < k + n →
      idewait (st f) true ≠ 0 →
      (∀ i, k ≤ i → i < f → idewait (st i) true = 0) →
      writeSwapLoop src st n k out =
        (idewait (st f) true,
         out ++ (List.range' k (f - k)).map (pushedSector src)) := by
  intro n
  induction n with
  | zero => intro k out f h1 h2 h3 h4; omega
  | succ n ih =>
    intro k out f h1 h2 h3 h4
    by_cases hkf : f = k
    · subst hkf
      have hb : (idewait (st f) true != 0) = true := by simpa using h3
      simp only [writeSwapLoop]
      rw [hb]
      simp only [if_true]
      simp [Nat.sub_self]
    · have h0 : idewait (st k) true = 0 := h4 k le_rfl (by omega)
      simp only [writeSwapLoop]
      rw [h0]
      simp only [bne_self_eq_false, Bool.false_eq_true, if_false]
      rw [ih (k + 1) _ f (by omega) (by omega) h3
        (fun i hi1 hi2 => h4 i (by omega) hi2)]
      obtain ⟨m, hm⟩ : ∃ m, f - k = m + 1 := ⟨f - k - 1, by omega⟩
      have hm1 : f - (k + 1) = m := by omega
      rw [hm, hm1, List.range'_succ]
      simp

/-- C8: for every starting sector and buffers, `read_swap` and
`write_swap` transfer exactly 8 sectors of SECTSIZE bytes (SECTSIZE/4
words per sector) and return 0 when every per-sector error-checked wait
succeeds; if the wait first fails on sector `k < 8`, the call returns that
nonzero fault immediately, with sectors before `k` already transferred and
not rolled back and sectors from `k` on untouched. -/
theorem swap_transfer_spec (pd src : Nat → Nat → Nat) (st : Nat → Nat)
    (secno : Nat) (dst : Nat → List Nat) :
    ((∀ k, k < 8 → idewait (st k) true = 0) →
       (read_swap pd st secno dst).ret = 0 ∧
       (∀ j, (read_swap pd st secno dst).dstOut j =
          if j < 8 then pulledSector pd j else dst j) ∧
       (write_swap src st secno).ret = 0 ∧
       (write_swap src st secno).pushed = (List.range 8).map (pushedSector src)) ∧
    (∀ k, k < 8 → idewait (st k) true ≠ 0 →
       (∀ i, i < k → idewait (st i) true = 0) →
       (read_swap pd st secno dst).ret = idewait (st k) true ∧
       (read_swap pd st secno dst).ret ≠ 0 ∧
       (∀ j, (read_swap pd st secno dst).dstOut j =
          if j < k then pulledSector pd j else dst j) ∧
       (write_swap src st secno).ret = idewait (st k) true ∧
       (write_swap src st secno).pushed = (List.range k).map (pushedSector src)) ∧
    (∀ j, (pulledSector pd j).length = SECTSIZE / 4 ∧
          (pushedSector src j).length = SECTSIZE / 4) := by
  refine ⟨?_, ?_, ?_⟩
  · intro h
    have hr := readSwapLoop_ok pd st 8 0 dst (fun i hi1 hi2 => h i (by omega))
    have hw := writeSwapLoop_ok src st 8 0 [] (fun i hi1 hi2 => h i (by omega))
    refine ⟨by simp [read_swap, hr], ?_, by simp [write_swap, hw], ?_⟩
    · intro j
      simp [read_swap, hr]
    · simp [write_swap, hw, List.range_eq_range']
  · intro k hk hke hprev
    have hr := readSwapLoop_fault pd st 8 0 dst k (by omega) (by omega) hke
      (fun i hi1 hi2 => hprev i hi2)
    have hw := writeSwapLoop_fault src st 8 0 [] k (by omega) (by omega) hke
      (fun i hi1 hi2 => hprev i hi2)
    refine ⟨by simp [read_swap, hr], by simpa [read_swap, hr] using hke, ?_,
      by simp [write_swap, hw], ?_⟩
    · intro j
      simp [read_swap, hr]
    · simp [write_swap, hw, List.range_eq_range']
  · intro j
    exact ⟨by simp [pulledSector], by simp [pushedSector]⟩

/-- Witness for C8: with an always-ready, error-free status register both
calls return 0. -/
theorem swap_transfer_spec_witness :
    (read_swap (fun _ _ => 0) (fun _ => 0x40) 5 (fun _ => [])).ret = 0 ∧
    (write_swap (fun _ _ => 0) (fun _ => 0x40) 5).ret = 0 := by
  have h := (swap_transfer_spec (fun _ _ => 0) (fun _ _ => 0) (fun _ => 0x40) 5
    (fun _ => [])).1 (fun k _ => rfl)
  exact ⟨h.1, h.2.2.1⟩

end Ide
